import Mathlib

/-!
Shallow embedding of the real-time inspection core:
`CameraManager.detectProductPresence` (presence detection via frame
differencing with hysteresis), `Inspector.processFrame` (inspection state
machine), `Inspector._getAggregatedResult` (temporal aggregation of
classifier samples) and `Inspector.manualInspect`.

JavaScript numbers carrying confidences and thresholds are modelled as
rationals (`ℚ`); JS insertion-ordered objects used as vote tallies are
modelled as association lists updated in place and appended at the end,
exactly as JS object key order behaves for string keys.
-/

namespace Workz

/-- `{ present, justEntered, justLeft }` returned by `detectProductPresence`. -/
structure PresenceSignal where
  present : Bool
  justEntered : Bool
  justLeft : Bool
deriving DecidableEq, Repr

/-- A classifier prediction: `{ label, confidence }` as consumed by `Inspector`. -/
structure ClassifierSample where
  label : String
  confidence : ℚ
deriving DecidableEq, Repr

/-- The verdict record built by `_getAggregatedResult` / `manualInspect`. -/
structure AggregatedVerdict where
  label : String
  confidence : ℚ
  isDefective : Bool
  defectType : Option String
  status : String
deriving DecidableEq, Repr

/-- `this.currentInspection = { startTime: Date.now(), predictions: [], thumbnail: null }`. -/
structure Inspection where
  startTime : ℕ
  predictions : List ClassifierSample
deriving DecidableEq, Repr

/-- The mutable fields of `Inspector` relevant to `processFrame`. -/
structure InspectorState where
  state : String
  currentInspection : Option Inspection
  predictionBuffer : List ClassifierSample
  bufferSize : ℕ
  minConfidence : ℚ
deriving DecidableEq, Repr

/-- `Inspector`'s constructor: `state='idle'`, empty buffer, `_bufferSize=8`,
`_minConfidence=0.4`. -/
def initInspector : InspectorState :=
  { state := "idle"
    currentInspection := none
    predictionBuffer := []
    bufferSize := 8
    minConfidence := 2/5 }

/-- The result object of `processFrame`; `finalResult` is only assigned in the
`justLeft` branch, hence optional with default `none`. -/
structure FrameOutcome where
  stateChanged : Bool
  inspectionComplete : Bool
  currentResult : Option AggregatedVerdict
  finalResult : Option AggregatedVerdict
deriving DecidableEq, Repr

/-- One step of the vote/confidence tally loop in `_getAggregatedResult`:
`votes[p.label] = (votes[p.label] || 0) + 1` together with
`confidenceSums[p.label] = (confidenceSums[p.label] || 0) + p.confidence`.
The association list records the object's property values and its property
creation order: an existing key is updated in place and a fresh key is
appended at the end. (Enumeration order, which differs for array-index keys,
is applied separately by `jsEntries` below.) -/
def bumpTally : List (String × ℕ × ℚ) → String → ℚ → List (String × ℕ × ℚ)
  | [], lab, c => [(lab, 1, c)]
  | (k, v, sc) :: rest, lab, c =>
      if k = lab then (k, v + 1, sc + c) :: rest
      else (k, v, sc) :: bumpTally rest lab c

/-- The full tally loop `for (const p of this._predictionBuffer) { ... }`. -/
def tallyVotes (buf : List ClassifierSample) : List (String × ℕ × ℚ) :=
  buf.foldl (fun acc p => bumpTally acc p.label p.confidence) []

/-- Code point of a decimal digit character, offset from `'0'`. -/
def charVal (c : Char) : ℕ := c.toNat - 48

/-- Whether a character is one of `'0'`..`'9'`. -/
def isDigitChar (c : Char) : Bool := decide (48 ≤ c.toNat) && decide (c.toNat ≤ 57)

/-- Numeric value of a digit string, most significant digit first. -/
def digitsVal (cs : List Char) : ℕ := cs.foldl (fun n c => 10 * n + charVal c) 0

/-- ECMA-262 array index: a canonical numeric string (digits only, no leading
zero except `"0"` itself) whose value is at most `2^32 - 2`. Such property
keys are enumerated before all other string keys. -/
def isArrayIndexKey (s : String) : Bool :=
  match s.data with
  | [] => false
  | c :: cs =>
      (c :: cs).all isDigitChar
        && (decide (c ≠ '0') || decide (cs = []))
        && decide (digitsVal (c :: cs) < 4294967295)

/-- Numeric value of a key (used to order array-index keys ascending). -/
def keyVal (s : String) : ℕ := digitsVal s.data

/-- Insert an entry into a list sorted ascending by numeric key value. -/
def insertByKeyVal (e : String × ℕ × ℚ) :
    List (String × ℕ × ℚ) → List (String × ℕ × ℚ)
  | [] => [e]
  | x :: xs => if keyVal e.1 ≤ keyVal x.1 then e :: x :: xs else x :: insertByKeyVal e xs

/-- Insertion sort by ascending numeric key value. -/
def sortByKeyVal : List (String × ℕ × ℚ) → List (String × ℕ × ℚ)
  | [] => []
  | x :: xs => insertByKeyVal x (sortByKeyVal xs)

/-- `Object.entries(votes)`: ECMA-262 `OrdinaryOwnPropertyKeys` enumerates
array-index keys first, in ascending numeric order, then the remaining
string keys in property creation order. -/
def jsEntries (entries : List (String × ℕ × ℚ)) : List (String × ℕ × ℚ) :=
  sortByKeyVal (entries.filter (fun e => isArrayIndexKey e.1))
    ++ entries.filter (fun e => !isArrayIndexKey e.1)

/-- The vote-maximum loop: `let bestLabel = 'ok'; let bestVotes = 0;
for (const [label, count] of Object.entries(votes)) if (count > bestVotes) ...`;
it visits the entries in enumeration order. -/
def pickBest (entries : List (String × ℕ × ℚ)) : String × ℕ :=
  entries.foldl (fun best e => if e.2.1 > best.2 then (e.1, e.2.1) else best) ("ok", 0)

/-- Association-list lookup modelling `votes[label]` / `confidenceSums[label]`
(the two JS objects always hold the same keys, so one list carries both). -/
def lookupTally : List (String × ℕ × ℚ) → String → ℕ × ℚ
  | [], _ => (0, 0)
  | (k, v) :: rest, lab => if k = lab then v else lookupTally rest lab

/-- `Inspector._getAggregatedResult`, as a function of the prediction buffer it
reads: empty buffer returns `null`; otherwise majority vote with the
confidence average `confidenceSums[bestLabel] / votes[bestLabel]`. -/
def getAggregatedResult (buf : List ClassifierSample) : Option AggregatedVerdict :=
  if buf = [] then none
  else
    let entries := tallyVotes buf
    let best := pickBest (jsEntries entries)
    let e := lookupTally entries best.1
    some { label := best.1
           confidence := e.2 / (e.1 : ℚ)
           isDefective := best.1 ≠ "ok"
           defectType := if best.1 ≠ "ok" then some best.1 else none
           status := if best.1 = "ok" then "ok" else "defective" }

/-- `Inspector.processFrame(prediction, presenceInfo)`. `now` stands for
`Date.now()`. The three `if` blocks run in sequence on the mutable state. -/
def processFrame (s : InspectorState) (prediction : Option ClassifierSample)
    (presenceInfo : PresenceSignal) (now : ℕ) : FrameOutcome × InspectorState :=
  let result0 : FrameOutcome :=
    { stateChanged := false, inspectionComplete := false
      currentResult := none, finalResult := none }
  -- if (presenceInfo.justEntered) { ... }
  let step1 : FrameOutcome × InspectorState :=
    if presenceInfo.justEntered then
      ({ result0 with stateChanged := true },
       { s with state := "inspecting"
                currentInspection := some { startTime := now, predictions := [] }
                predictionBuffer := [] })
    else (result0, s)
  let result1 := step1.1
  let s1 := step1.2
  -- if (this.state === 'inspecting' && prediction) { ... }
  let step2 : FrameOutcome × InspectorState :=
    if s1.state = "inspecting" then
      match prediction with
      | some p =>
          let buf1 := s1.predictionBuffer ++ [p]
          let buf2 := if buf1.length > s1.bufferSize then buf1.tail else buf1
          ({ result1 with currentResult := getAggregatedResult buf2 },
           { s1 with predictionBuffer := buf2 })
      | none => (result1, s1)
    else (result1, s1)
  let result2 := step2.1
  let s2 := step2.2
  -- if (presenceInfo.justLeft && this.state === 'inspecting') { ... }
  if presenceInfo.justLeft ∧ s2.state = "inspecting" then
    ({ result2 with inspectionComplete := true
                    finalResult := getAggregatedResult s2.predictionBuffer
                    stateChanged := true },
     { s2 with state := "idle", currentInspection := none, predictionBuffer := [] })
  else (result2, s2)

/-- `Inspector.manualInspect(prediction)`: a verdict from one sample, no state
touched (the method reads and writes none of the instance fields). -/
def manualInspect (s : InspectorState) (prediction : Option ClassifierSample) :
    Option AggregatedVerdict × InspectorState :=
  match prediction with
  | none => (none, s)
  | some p =>
      (some { label := p.label
              confidence := p.confidence
              isDefective := p.label ≠ "ok"
              defectType := if p.label ≠ "ok" then some p.label else none
              status := if p.label = "ok" then "ok" else "defective" }, s)

/-- Running `processFrame` over a list of `(prediction, presenceInfo, now)`
inputs, keeping the final state. -/
def runInspector (s : InspectorState) (inputs : List (Option ClassifierSample × PresenceSignal × ℕ)) :
    InspectorState :=
  inputs.foldl (fun st i => (processFrame st i.1 i.2.1 i.2.2).2) s

/-- The 160×120 `ImageData` drawn for differencing: a flat RGBA byte stream. -/
structure Frame where
  data : List ℕ
deriving DecidableEq, Repr

/-- One sampled pixel of the differencing loop: channels `i, i+1, i+2` of both
frames; the pixel counts as changed when the mean absolute channel delta
exceeds `motionThreshold`. Out-of-range reads yield JS `NaN` arithmetic whose
comparison is false, i.e. the pixel is not counted. -/
def pixelChanged (curr prev : List ℕ) (i : ℕ) (motionThreshold : ℚ) : Bool :=
  match curr.get? i, curr.get? (i + 1), curr.get? (i + 2),
        prev.get? i, prev.get? (i + 1), prev.get? (i + 2) with
  | some r, some g, some b, some r2, some g2, some b2 =>
      decide ((((((r : ℤ) - r2).natAbs + ((g : ℤ) - g2).natAbs
        + ((b : ℤ) - b2).natAbs : ℕ) : ℚ)) / 3 > motionThreshold)
  | _, _, _, _, _, _ => false

/-- `for (let i = 0; i < curr.length; i += 16) ... changedPixels++`:
the loop visits `i = 16*j` for every `j` with `16*j < curr.length`. -/
def changedPixels (curr prev : Frame) (motionThreshold : ℚ) : ℕ :=
  ((List.range ((curr.data.length + 15) / 16)).filter
    (fun j => pixelChanged curr.data prev.data (16 * j) motionThreshold)).length

/-- `motionRatio = changedPixels / (totalPixels / 4)` with `totalPixels = 160*120`. -/
def motionRatio (curr prev : Frame) (motionThreshold : ℚ) : ℚ :=
  (changedPixels curr prev motionThreshold : ℚ) / ((160 * 120 : ℚ) / 4)

/-- `hasMotion = motionRatio > this._presenceThreshold`. -/
def hasMotionB (curr prev : Frame) (motionThreshold presenceThreshold : ℚ) : Bool :=
  decide (motionRatio curr prev motionThreshold > presenceThreshold)

/-- The `CameraManager` fields driving `detectProductPresence`. -/
structure CameraState where
  isActive : Bool
  prevFrame : Option Frame
  motionThreshold : ℚ
  presenceThreshold : ℚ
  exitFrameCount : ℕ
  exitFrameRequired : ℕ
  productPresent : Bool
deriving DecidableEq, Repr

/-- `CameraManager`'s constructor defaults: `_motionThreshold = 25`,
`_presenceThreshold = 0.02`, `_exitFrameRequired = 15`, no previous frame,
product absent, camera not yet started. -/
def initCameraState : CameraState :=
  { isActive := false
    prevFrame := none
    motionThreshold := 25
    presenceThreshold := 2/100
    exitFrameCount := 0
    exitFrameRequired := 15
    productPresent := false }

/-- All-false presence signal. -/
def allFalseSignal : PresenceSignal :=
  { present := false, justEntered := false, justLeft := false }

/-- `CameraManager.detectProductPresence()`. `videoReady` models
`this.video.readyState >= 2`; `frame` is the 160×120 downsampled capture of
the current video image. -/
def detectProductPresence (s : CameraState) (videoReady : Bool) (frame : Frame) :
    PresenceSignal × CameraState :=
  if s.isActive = false ∨ videoReady = false then (allFalseSignal, s)
  else
    match s.prevFrame with
    | none => (allFalseSignal, { s with prevFrame := some frame })
    | some prev =>
        if hasMotionB frame prev s.motionThreshold s.presenceThreshold then
          ({ present := true, justEntered := !s.productPresent, justLeft := false },
           { s with prevFrame := some frame, exitFrameCount := 0, productPresent := true })
        else
          if s.productPresent then
            let c := s.exitFrameCount + 1
            if c ≥ s.exitFrameRequired then
              ({ present := false, justEntered := false, justLeft := true },
               { s with prevFrame := some frame, exitFrameCount := c, productPresent := false })
            else
              ({ present := true, justEntered := false, justLeft := false },
               { s with prevFrame := some frame, exitFrameCount := c })
          else
            (allFalseSignal, { s with prevFrame := some frame })

/-- Running `detectProductPresence` once per frame over a ready video stream,
collecting the returned signals. -/
def runDetect (s : CameraState) (fs : List Frame) : List PresenceSignal × CameraState :=
  match fs with
  | [] => ([], s)
  | f :: rest =>
      let r := detectProductPresence s true f
      let rr := runDetect r.2 rest
      (r.1 :: rr.1, rr.2)

/-- The run's frames all evaluate to "no motion" against their predecessor
(`prev` is the frame stored before the run starts). -/
def noMotionChain (mThr pThr : ℚ) : Frame → List Frame → Prop
  | _, [] => True
  | prev, f :: rest => hasMotionB f prev mThr pThr = false ∧ noMotionChain mThr pThr f rest

/-- A concrete frame with no pixel data, used in concrete instantiations. -/
def emptyFrame : Frame := ⟨[]⟩

/-- A concrete camera state: product present, exit counter 0, debounce 2. -/
def debounceWitnessState : CameraState :=
  { isActive := true
    prevFrame := some ⟨[]⟩
    motionThreshold := 25
    presenceThreshold := 2/100
    exitFrameCount := 0
    exitFrameRequired := 2
    productPresent := true }

/-- A concrete mid-inspection state with one buffered sample. -/
def reentryState : InspectorState :=
  { state := "inspecting"
    currentInspection := some { startTime := 0, predictions := [] }
    predictionBuffer := [⟨"ok", 1/2⟩]
    bufferSize := 8
    minConfidence := 2/5 }

/-!
## Basic behaviour of `processFrame`
-/

/-- With `justEntered` and no sample and no `justLeft`, `processFrame` starts a
fresh inspection. -/
theorem processFrame_enter (s : InspectorState) (pr : Bool) (now : ℕ) :
    processFrame s none ⟨pr, true, false⟩ now =
      ({ stateChanged := true, inspectionComplete := false
         currentResult := none, finalResult := none },
       { s with state := "inspecting"
                currentInspection := some { startTime := now, predictions := [] }
                predictionBuffer := [] }) := by
  simp [processFrame]

/-- While inspecting, a sample with no presence edge is pushed (no eviction
when the buffer still has room) and aggregated. -/
theorem processFrame_sample_inspecting (s : InspectorState) (p : ClassifierSample)
    (pr : Bool) (now : ℕ) (hst : s.state = "inspecting")
    (hlen : s.predictionBuffer.length + 1 ≤ s.bufferSize) :
    processFrame s (some p) ⟨pr, false, false⟩ now =
      ({ stateChanged := false, inspectionComplete := false
         currentResult := getAggregatedResult (s.predictionBuffer ++ [p])
         finalResult := none },
       { s with predictionBuffer := s.predictionBuffer ++ [p] }) := by
  have hnot : ¬ s.bufferSize < s.predictionBuffer.length + 1 := by omega
  simp [processFrame, hst, hnot]

/-- While inspecting, `justLeft` with no sample finalizes the inspection. -/
theorem processFrame_leave (s : InspectorState) (pr : Bool) (now : ℕ)
    (hst : s.state = "inspecting") :
    processFrame s none ⟨pr, false, true⟩ now =
      ({ stateChanged := true, inspectionComplete := true
         currentResult := none
         finalResult := getAggregatedResult s.predictionBuffer },
       { s with state := "idle", currentInspection := none, predictionBuffer := [] }) := by
  simp [processFrame, hst]

/-- Aggregation of a non-empty buffer always yields a verdict. -/
theorem getAggregatedResult_ne_none (buf : List ClassifierSample) (h : buf ≠ []) :
    getAggregatedResult buf ≠ none := by
  simp [getAggregatedResult, h]

/-- C6: aggregation applied to an empty PredictionBuffer returns `null` (the
function is total, so it can never throw), regardless of any other state. -/
theorem claim_C6_empty_aggregate : getAggregatedResult [] = none := rfl

/-- C8: for every machine state and every non-null sample, `manualInspect`
returns a verdict derived from the sample alone (`label = s.label`,
`confidence = s.confidence`, `isDefective = (s.label != "ok")`, `defectType`
and `status` per the same rule) and leaves the whole `InspectorState` —
PredictionBuffer included — unchanged. -/
theorem claim_C8_manual_inspect (s : InspectorState) (p : ClassifierSample) :
    manualInspect s (some p) =
      (some { label := p.label
              confidence := p.confidence
              isDefective := decide (p.label ≠ "ok")
              defectType := if p.label ≠ "ok" then some p.label else none
              status := if p.label = "ok" then "ok" else "defective" }, s) := rfl

/-- C9: a single `detectProductPresence` call never returns `justEntered` and
`justLeft` both true. -/
theorem claim_C9_not_both_edges (s : CameraState) (ready : Bool) (f : Frame) :
    ((detectProductPresence s ready f).1.justEntered
        && (detectProductPresence s ready f).1.justLeft) = false := by
  by_cases h1 : s.isActive = false ∨ ready = false
  · simp [detectProductPresence, h1, allFalseSignal]
  · cases hp : s.prevFrame with
    | none => simp [detectProductPresence, h1, hp, allFalseSignal]
    | some prev =>
        by_cases hm : hasMotionB f prev s.motionThreshold s.presenceThreshold
        · simp [detectProductPresence, h1, hp, hm]
        · by_cases hpp : s.productPresent
          · by_cases hc : s.exitFrameCount + 1 ≥ s.exitFrameRequired
            · simp [detectProductPresence, h1, hp, hm, hpp, hc]
            · simp [detectProductPresence, h1, hp, hm, hpp, hc]
          · simp [detectProductPresence, h1, hp, hm, hpp, allFalseSignal]

/-- C1 counterexample: in a full idle→inspecting→idle cycle (entry, three
samples, exit) the code sets `stateChanged = true` on the final `justLeft`
call as well as on the entry call, so `stateChanged` is not true exactly
once. -/
theorem claim_C1_counterexample :
    (processFrame initInspector none ⟨true, true, false⟩ 100).1.stateChanged = true
    ∧ (processFrame
        (processFrame
          (processFrame
            (processFrame
              (processFrame initInspector none ⟨true, true, false⟩ 100).2
              (some ⟨"ok", 9/10⟩) ⟨true, false, false⟩ 101).2
            (some ⟨"scratch", 4/5⟩) ⟨true, false, false⟩ 102).2
          (some ⟨"scratch", 7/10⟩) ⟨true, false, false⟩ 103).2
        none ⟨false, false, true⟩ 104).1.stateChanged = true := by
  constructor
  · rfl
  · rfl

/-- C1 (amended): a full cycle — entry with `justEntered`, three sample
frames, exit with `justLeft` — yields `stateChanged = true` exactly twice
(on the entry call and on the final call, not once as claimed); each sample
call returns a non-null `currentResult`; the final call returns
`inspectionComplete = true` with a non-null `finalResult` equal to
aggregating the three samples; afterwards the buffer is empty and the state
is `idle`. -/
theorem claim_C1_cycle (p1 p2 p3 : ClassifierSample) (b1 b2 b3 b4 b5 : Bool)
    (t1 t2 t3 t4 t5 : ℕ) :
    let c1 := processFrame initInspector none ⟨b1, true, false⟩ t1
    let c2 := processFrame c1.2 (some p1) ⟨b2, false, false⟩ t2
    let c3 := processFrame c2.2 (some p2) ⟨b3, false, false⟩ t3
    let c4 := processFrame c3.2 (some p3) ⟨b4, false, false⟩ t4
    let c5 := processFrame c4.2 none ⟨b5, false, true⟩ t5
    c1.1.stateChanged = true ∧ c2.1.stateChanged = false ∧ c3.1.stateChanged = false
      ∧ c4.1.stateChanged = false ∧ c5.1.stateChanged = true
      ∧ c1.1.inspectionComplete = false ∧ c2.1.inspectionComplete = false
      ∧ c3.1.inspectionComplete = false ∧ c4.1.inspectionComplete = false
      ∧ c5.1.inspectionComplete = true
      ∧ c2.1.currentResult = getAggregatedResult [p1] ∧ c2.1.currentResult ≠ none
      ∧ c3.1.currentResult = getAggregatedResult [p1, p2] ∧ c3.1.currentResult ≠ none
      ∧ c4.1.currentResult = getAggregatedResult [p1, p2, p3] ∧ c4.1.currentResult ≠ none
      ∧ c5.1.finalResult = getAggregatedResult [p1, p2, p3] ∧ c5.1.finalResult ≠ none
      ∧ c5.2.predictionBuffer = [] ∧ c5.2.state = "idle" := by
  simp only [processFrame_enter]
  rw [processFrame_sample_inspecting _ p1 _ _ (by rfl) (by simp [initInspector])]
  rw [processFrame_sample_inspecting _ p2 _ _ (by rfl) (by simp [initInspector])]
  rw [processFrame_sample_inspecting _ p3 _ _ (by rfl) (by simp [initInspector])]
  rw [processFrame_leave _ _ _ (by rfl)]
  simp [getAggregatedResult]

/-- C2 counterexample: a call with `presence.justEntered = true` while the
machine is already `inspecting` does not leave state and buffer unchanged —
the buffer (here holding one sample) is cleared and the returned outcome has
`stateChanged = true`, contradicting the claim. -/
theorem claim_C2_counterexample :
    (processFrame reentryState none ⟨true, true, false⟩ 5).1.stateChanged = true
    ∧ (processFrame reentryState none ⟨true, true, false⟩ 5).2.predictionBuffer = []
    ∧ reentryState.predictionBuffer ≠ [] := by
  refine ⟨rfl, rfl, by simp [reentryState]⟩

/-- C2 (amended): a call with `justEntered = true` (and no `justLeft`) while
already `inspecting` restarts the inspection — `stateChanged = true`, a fresh
`currentInspection` with `startTime = now`, and a cleared buffer when no
sample arrives; every call with `justEntered = false` that matches no defined
transition (no sample while inspecting, and `justLeft` only outside
`inspecting`) leaves the whole state unchanged and returns
`stateChanged = false` with no results. -/
theorem claim_C2_undefined_transitions :
    (∀ (s : InspectorState) (pred : Option ClassifierSample) (pres : PresenceSignal) (now : ℕ),
      pres.justEntered = true → pres.justLeft = false → s.state = "inspecting" →
        (processFrame s pred pres now).1.stateChanged = true
        ∧ (processFrame s pred pres now).2.state = "inspecting"
        ∧ (processFrame s pred pres now).2.currentInspection
            = some { startTime := now, predictions := [] }
        ∧ (pred = none → (processFrame s pred pres now).2.predictionBuffer = []))
    ∧ (∀ (s : InspectorState) (pred : Option ClassifierSample) (pres : PresenceSignal) (now : ℕ),
        pres.justEntered = false →
        (s.state = "inspecting" → pred = none) →
        (pres.justLeft = true → s.state ≠ "inspecting") →
          (processFrame s pred pres now).2 = s
          ∧ (processFrame s pred pres now).1
              = { stateChanged := false, inspectionComplete := false
                  currentResult := none, finalResult := none }) := by
  constructor
  · intro s pred pres now hE hL _
    cases pred with
    | none => simp [processFrame, hE, hL]
    | some p => simp [processFrame, hE, hL]
  · intro s pred pres now hE hSamp hL
    by_cases hst : s.state = "inspecting"
    · have hpred : pred = none := hSamp hst
      by_cases hjl : pres.justLeft = true
      · exact absurd hst (hL hjl)
      · simp [processFrame, hE, hpred, hjl, hst]
    · by_cases hjl : pres.justLeft = true
      · simp [processFrame, hE, hst, hjl]
      · simp [processFrame, hE, hst, hjl]

/-- Witness for C2 (amended), at concrete inputs: re-entry while inspecting
flags `stateChanged`, and an edge-free idle call leaves the state untouched. -/
theorem claim_C2_witness :
    (processFrame reentryState none ⟨true, true, false⟩ 5).1.stateChanged = true
    ∧ (processFrame initInspector none ⟨false, false, false⟩ 0).2 = initInspector := by
  constructor
  · exact (claim_C2_undefined_transitions.1 reentryState none ⟨true, true, false⟩ 5
      rfl rfl rfl).1
  · exact (claim_C2_undefined_transitions.2 initInspector none ⟨false, false, false⟩ 0
      rfl (fun _ => rfl) (fun h => by simp at h)).1

/-- A `processFrame` call keeps the buffer within the configured capacity and
never touches the capacity itself. -/
theorem processFrame_buffer_le (s : InspectorState) (pred : Option ClassifierSample)
    (pres : PresenceSignal) (now : ℕ) (h : s.predictionBuffer.length ≤ s.bufferSize) :
    (processFrame s pred pres now).2.predictionBuffer.length ≤ s.bufferSize
    ∧ (processFrame s pred pres now).2.bufferSize = s.bufferSize := by
  unfold processFrame
  by_cases hE : pres.justEntered = true <;>
    cases pred with
    | none =>
        by_cases hL : pres.justLeft = true <;>
          by_cases hst : s.state = "inspecting" <;>
            simp [hE, hL, hst] <;> omega
    | some p =>
        by_cases hL : pres.justLeft = true <;>
          by_cases hst : s.state = "inspecting" <;>
            simp [hE, hL, hst] <;>
              first
                | omega
                | (split <;> simp_all <;> omega)

/-- Any run of `processFrame` calls keeps the buffer within capacity and the
capacity itself unchanged. -/
theorem runInspector_invariant (inputs : List (Option ClassifierSample × PresenceSignal × ℕ)) :
    ∀ s : InspectorState, s.predictionBuffer.length ≤ s.bufferSize →
      (runInspector s inputs).bufferSize = s.bufferSize
      ∧ (runInspector s inputs).predictionBuffer.length ≤ s.bufferSize := by
  induction inputs with
  | nil => intro s h; exact ⟨rfl, h⟩
  | cons i rest ih =>
      intro s h
      have hs := processFrame_buffer_le s i.1 i.2.1 i.2.2 h
      have hrec := ih (processFrame s i.1 i.2.1 i.2.2).2 (by rw [hs.2]; exact hs.1)
      have hrun : runInspector s (i :: rest)
          = runInspector (processFrame s i.1 i.2.1 i.2.2).2 rest := by
        simp [runInspector]
      rw [hrun]
      exact ⟨hrec.1.trans hs.2, hrec.2.trans_eq hs.2⟩

/-- C7: (i) over every sequence of `processFrame` calls from the initial
state, the PredictionBuffer's length never exceeds the configured capacity
(default 8); (ii) eviction is FIFO: an inspection that starts and then
receives 10 samples is left with exactly the last 8 samples in insertion
order. -/
theorem claim_C7_buffer_capacity_fifo :
    (∀ inputs : List (Option ClassifierSample × PresenceSignal × ℕ),
      (runInspector initInspector inputs).predictionBuffer.length
        ≤ initInspector.bufferSize)
    ∧ (∀ ss : List ClassifierSample, ss.length = 10 → ∀ (t : ℕ) (e : Bool),
        (runInspector initInspector
          ((none, ⟨e, true, false⟩, t)
            :: ss.map (fun p => (some p, ⟨e, false, false⟩, t)))).predictionBuffer
          = ss.drop 2) := by
  constructor
  · intro inputs
    exact (runInspector_invariant inputs initInspector (by simp [initInspector])).2
  · intro ss hlen t e
    rcases ss with _ | ⟨a1, ss⟩; · simp at hlen
    rcases ss with _ | ⟨a2, ss⟩; · simp at hlen
    rcases ss with _ | ⟨a3, ss⟩; · simp at hlen
    rcases ss with _ | ⟨a4, ss⟩; · simp at hlen
    rcases ss with _ | ⟨a5, ss⟩; · simp at hlen
    rcases ss with _ | ⟨a6, ss⟩; · simp at hlen
    rcases ss with _ | ⟨a7, ss⟩; · simp at hlen
    rcases ss with _ | ⟨a8, ss⟩; · simp at hlen
    rcases ss with _ | ⟨a9, ss⟩; · simp at hlen
    rcases ss with _ | ⟨a10, ss⟩; · simp at hlen
    have htl : ss = [] := by
      simp only [List.length_cons] at hlen
      exact List.eq_nil_of_length_eq_zero (by omega)
    subst htl
    simp [runInspector, processFrame, initInspector]

/-- Witness for C7 at concrete inputs: ten concrete samples pushed after an
entry call leave the last eight, and a concrete run respects the capacity. -/
theorem claim_C7_witness :
    (runInspector initInspector
      ((none, ⟨true, true, false⟩, 0)
        :: (List.replicate 10 (⟨"ok", 1/2⟩ : ClassifierSample)).map
          (fun p => (some p, ⟨true, false, false⟩, 0)))).predictionBuffer
      = (List.replicate 10 (⟨"ok", 1/2⟩ : ClassifierSample)).drop 2 := by
  exact claim_C7_buffer_capacity_fifo.2 _ (by simp) 0 true

/-!
## Aggregation: the tally is a faithful per-label count/sum in first-seen order
-/

/-- Indexing into a replicated all-false signal list always yields it. -/
theorem getD_replicate_allFalse :
    ∀ (n i : ℕ), (List.replicate n allFalseSignal).getD i allFalseSignal = allFalseSignal := by
  intro n
  induction n with
  | zero => intro i; simp [List.getD]
  | succ m ih =>
      intro i
      cases i with
      | zero => simp [List.replicate_succ]
      | succ j =>
          rw [List.replicate_succ, List.getD_cons_succ]
          exact ih j

/-- While the product is absent, a run of no-motion frames produces only
all-false signals and leaves presence and the exit counter untouched. -/
theorem runDetect_absent (fs : List Frame) :
    ∀ (s : CameraState) (f : Frame), s.isActive = true → s.prevFrame = some f →
      s.productPresent = false →
      noMotionChain s.motionThreshold s.presenceThreshold f fs →
      (runDetect s fs).1 = List.replicate fs.length allFalseSignal
      ∧ (runDetect s fs).2.productPresent = false
      ∧ (runDetect s fs).2.exitFrameCount = s.exitFrameCount := by
  induction fs with
  | nil => intro s f _ _ hpp _; exact ⟨rfl, hpp, rfl⟩
  | cons f1 rest ih =>
      intro s f hact hprev hpp hchain
      obtain ⟨hnm, hchain'⟩ := hchain
      have hstep : detectProductPresence s true f1 =
          (allFalseSignal, { s with prevFrame := some f1 }) := by
        simp [detectProductPresence, hact, hprev, hnm, hpp]
      have hrec := ih { s with prevFrame := some f1 } f1 hact rfl hpp hchain'
      simp only [runDetect, hstep]
      exact ⟨by rw [hrec.1]; simp [List.replicate_succ], hrec.2.1, hrec.2.2⟩

/-- Shifting the exit counter by one matches shifting the call index. -/
theorem decide_count_shift_eq (c j R : ℕ) :
    decide (c + 1 + j + 1 = R) = decide (c + (j + 1) + 1 = R) := by
  have h : c + 1 + j + 1 = c + (j + 1) + 1 := by omega
  rw [h]

/-- Shifting the exit counter by one matches shifting the call index
(strict-order version). -/
theorem decide_count_shift_lt (c j R : ℕ) :
    decide (c + 1 + j + 1 < R) = decide (c + (j + 1) + 1 < R) := by
  have h : c + 1 + j + 1 = c + (j + 1) + 1 := by omega
  rw [h]

/-- Shifting the exit counter by one matches shifting the run length. -/
theorem decide_count_shift_len (c n R : ℕ) :
    decide (c + 1 + n < R) = decide (c + (n + 1) < R) := by
  have h : c + 1 + n = c + (n + 1) := by omega
  rw [h]

/-- While the product is present with exit counter `c < exitFrameRequired`, a
run of no-motion frames keeps `present = true` and silent edges until the
counter reaches the threshold, fires `justLeft` exactly on that call, and
reports absence afterwards. -/
theorem runDetect_present_countdown (fs : List Frame) :
    ∀ (s : CameraState) (f : Frame), s.isActive = true → s.prevFrame = some f →
      s.productPresent = true → s.exitFrameCount < s.exitFrameRequired →
      noMotionChain s.motionThreshold s.presenceThreshold f fs →
      (∀ i, i < fs.length →
        ((runDetect s fs).1.getD i allFalseSignal).justLeft
            = decide (s.exitFrameCount + i + 1 = s.exitFrameRequired)
        ∧ ((runDetect s fs).1.getD i allFalseSignal).present
            = decide (s.exitFrameCount + i + 1 < s.exitFrameRequired)
        ∧ ((runDetect s fs).1.getD i allFalseSignal).justEntered = false)
      ∧ (runDetect s fs).2.productPresent
          = decide (s.exitFrameCount + fs.length < s.exitFrameRequired) := by
  induction fs with
  | nil =>
      intro s f _ _ hpp hc _
      refine ⟨fun i hi => absurd hi (by simp), ?_⟩
      simp only [runDetect, List.length_nil, Nat.add_zero]
      rw [hpp]
      exact (decide_eq_true hc).symm
  | cons f1 rest ih =>
      intro s f hact hprev hpp hc hchain
      obtain ⟨hnm, hchain'⟩ := hchain
      by_cases hge : s.exitFrameCount + 1 ≥ s.exitFrameRequired
      · -- this call fires justLeft; afterwards the product is absent
        have heqR : s.exitFrameCount + 0 + 1 = s.exitFrameRequired := by omega
        have hstep : detectProductPresence s true f1 =
            ({ present := false, justEntered := false, justLeft := true },
             { s with prevFrame := some f1, exitFrameCount := s.exitFrameCount + 1,
                      productPresent := false }) := by
          simp [detectProductPresence, hact, hprev, hnm, hpp, hge]
        have hrec := runDetect_absent rest
          { s with prevFrame := some f1, exitFrameCount := s.exitFrameCount + 1,
                   productPresent := false } f1 hact rfl rfl hchain'
        simp only [runDetect, hstep]
        constructor
        · intro i hi
          cases i with
          | zero =>
              simp only [List.getD_cons_zero]
              exact ⟨(decide_eq_true heqR).symm, (decide_eq_false (by omega)).symm, by simp⟩
          | succ j =>
              simp only [List.getD_cons_succ]
              rw [hrec.1, getD_replicate_allFalse]
              exact ⟨(decide_eq_false (by omega)).symm,
                (decide_eq_false (by omega)).symm, by simp [allFalseSignal]⟩
        · rw [hrec.2.1]
          simp only [List.length_cons]
          exact (decide_eq_false (by omega)).symm
      · -- still counting: present stays true, no edge
        have hstep : detectProductPresence s true f1 =
            ({ present := true, justEntered := false, justLeft := false },
             { s with prevFrame := some f1,
                      exitFrameCount := s.exitFrameCount + 1 }) := by
          simp [detectProductPresence, hact, hprev, hnm, hpp, hge]
        have hc' : s.exitFrameCount + 1 < s.exitFrameRequired := by omega
        have hrec := ih { s with prevFrame := some f1, exitFrameCount := s.exitFrameCount + 1 }
          f1 hact rfl hpp hc' hchain'
        simp only [runDetect, hstep]
        constructor
        · intro i hi
          cases i with
          | zero =>
              simp only [List.getD_cons_zero]
              exact ⟨(decide_eq_false (by omega)).symm, (decide_eq_true (by omega)).symm,
                by simp⟩
          | succ j =>
              simp only [List.getD_cons_succ]
              have hj' : j < rest.length := by
                simp only [List.length_cons] at hi
                omega
              have hj := hrec.1 j hj'
              refine ⟨?_, ?_, hj.2.2⟩
              · rw [hj.1]
                exact decide_count_shift_eq s.exitFrameCount j s.exitFrameRequired
              · rw [hj.2.1]
                exact decide_count_shift_lt s.exitFrameCount j s.exitFrameRequired
        · rw [hrec.2]
          simp only [List.length_cons]
          exact decide_count_shift_len s.exitFrameCount rest.length s.exitFrameRequired

/-- C4: with the product present and the exit counter at 0, each of the first
`exitFramesRequired - 1` consecutive no-motion calls reports `present = true`
and no `justLeft`; the `exitFramesRequired`-th call fires `justLeft` exactly
once (no later no-motion call fires it again, and `present` is reported
false from that call on), and the detector's presence flag becomes false. -/
theorem claim_C4_exit_debounce (s : CameraState) (f : Frame) (fs : List Frame)
    (hact : s.isActive = true) (hprev : s.prevFrame = some f)
    (hpp : s.productPresent = true) (hcount : s.exitFrameCount = 0)
    (hR : 0 < s.exitFrameRequired)
    (hchain : noMotionChain s.motionThreshold s.presenceThreshold f fs) :
    (∀ i, i < fs.length →
      ((runDetect s fs).1.getD i allFalseSignal).justLeft
          = decide (i + 1 = s.exitFrameRequired)
      ∧ ((runDetect s fs).1.getD i allFalseSignal).present
          = decide (i + 1 < s.exitFrameRequired))
    ∧ (runDetect s fs).2.productPresent = decide (fs.length < s.exitFrameRequired) := by
  have h := runDetect_present_countdown fs s f hact hprev hpp (by omega) hchain
  rw [hcount] at h
  simp only [Nat.zero_add] at h
  exact ⟨fun i hi => ⟨(h.1 i hi).1, (h.1 i hi).2.1⟩, h.2⟩

/-- A pixel never counts as changed when compared with itself. -/
theorem pixelChanged_self (d : List ℕ) (i : ℕ) (mThr : ℚ) (hm : 0 ≤ mThr) :
    pixelChanged d d i mThr = false := by
  unfold pixelChanged
  cases h1 : d.get? i with
  | none => rfl
  | some r =>
      cases h2 : d.get? (i + 1) with
      | none => rfl
      | some g =>
          cases h3 : d.get? (i + 2) with
          | none => rfl
          | some b =>
              simp only [sub_self, Int.natAbs_zero, Nat.add_zero, Nat.cast_zero, zero_div]
              exact decide_eq_false (not_lt.mpr hm)

/-- Comparing a frame with itself yields no changed pixels. -/
theorem changedPixels_self (f : Frame) (mThr : ℚ) (hm : 0 ≤ mThr) :
    changedPixels f f mThr = 0 := by
  unfold changedPixels
  rw [List.length_eq_zero, List.filter_eq_nil_iff]
  intro j _
  simp [pixelChanged_self f.data (16 * j) mThr hm]

/-- A frame compared with itself never registers motion (for non-negative
thresholds). -/
theorem hasMotionB_self (f : Frame) (mThr pThr : ℚ) (hm : 0 ≤ mThr) (hp : 0 ≤ pThr) :
    hasMotionB f f mThr pThr = false := by
  unfold hasMotionB motionRatio
  rw [changedPixels_self f mThr hm]
  simp only [Nat.cast_zero, zero_div]
  exact decide_eq_false (not_lt.mpr hp)

/-- Witness for C4: with debounce 2 and three static frames, the second call
fires `justLeft` and the detector ends with the product absent. -/
theorem claim_C4_witness :
    ((runDetect debounceWitnessState [⟨[]⟩, ⟨[]⟩, ⟨[]⟩]).1.getD 1 allFalseSignal).justLeft
        = true
    ∧ (runDetect debounceWitnessState [⟨[]⟩, ⟨[]⟩, ⟨[]⟩]).2.productPresent = false := by
  have hnm : hasMotionB ⟨[]⟩ ⟨[]⟩ debounceWitnessState.motionThreshold
      debounceWitnessState.presenceThreshold = false :=
    hasMotionB_self ⟨[]⟩ _ _ (by norm_num [debounceWitnessState])
      (by norm_num [debounceWitnessState])
  have h := claim_C4_exit_debounce debounceWitnessState ⟨[]⟩ [⟨[]⟩, ⟨[]⟩, ⟨[]⟩]
    rfl rfl rfl rfl (by decide) ⟨hnm, hnm, hnm, trivial⟩
  constructor
  · rw [(h.1 1 (by decide)).1]
    decide
  · rw [h.2]
    decide

/-- A pixel-identical frame sequence is a no-motion chain. -/
theorem noMotionChain_of_chain_eq (mThr pThr : ℚ) (hm : 0 ≤ mThr) (hp : 0 ≤ pThr) :
    ∀ (fs : List Frame) (prev : Frame), List.Chain' (fun a b => a = b) (prev :: fs) →
      noMotionChain mThr pThr prev fs := by
  intro fs
  induction fs with
  | nil => intro prev _; trivial
  | cons f rest ih =>
      intro prev hch
      rw [List.chain'_cons] at hch
      refine ⟨?_, ih f hch.2⟩
      rw [← hch.1]
      exact hasMotionB_self prev mThr pThr hm hp

/-- C5: on a freshly created (but started) detector, a frame sequence in
which every frame is pixel-identical to its predecessor never raises
`justEntered` or `justLeft`, and `present` is false on every call — the very
first (cold start) call included. -/
theorem claim_C5_static_scene (fs : List Frame)
    (hchain : List.Chain' (fun a b => a = b) fs) :
    ∀ i : ℕ,
      (runDetect { initCameraState with isActive := true } fs).1.getD i allFalseSignal
        = allFalseSignal := by
  cases fs with
  | nil => intro i; simp [runDetect, List.getD]
  | cons f1 rest =>
      have hstep : detectProductPresence { initCameraState with isActive := true } true f1 =
          (allFalseSignal,
           { initCameraState with isActive := true, prevFrame := some f1 }) := by
        simp [detectProductPresence, initCameraState]
      have hchain' : noMotionChain (25 : ℚ) (2/100) f1 rest :=
        noMotionChain_of_chain_eq 25 (2/100) (by norm_num) (by norm_num) rest f1 hchain
      have hrec := runDetect_absent rest
        { initCameraState with isActive := true, prevFrame := some f1 } f1
        rfl rfl rfl hchain'
      intro i
      simp only [runDetect, hstep]
      cases i with
      | zero => simp
      | succ j =>
          simp only [List.getD_cons_succ]
          rw [hrec.1]
          exact getD_replicate_allFalse _ _

/-- Witness for C5: two identical empty frames from a fresh started detector
produce an all-false first signal. -/
theorem claim_C5_witness :
    (runDetect { initCameraState with isActive := true }
        [(⟨[]⟩ : Frame), ⟨[]⟩]).1.getD 0 allFalseSignal = allFalseSignal :=
  claim_C5_static_scene [⟨[]⟩, ⟨[]⟩]
    (List.chain'_cons.mpr ⟨rfl, List.chain'_singleton _⟩) 0

end Workz
